import Mathlib

/-!
Shallow embedding of the Ludo backend game-room logic (src/server.js,
the "fixed" v2.0 variant, which the spec designates as authoritative).

Strings (room codes, chat messages, game-mode labels) are irrelevant to the
verified properties and are dropped; socket ids are modelled as naturals.
Token positions are integers (-1 = home, 0-51 shared track, 52-57 stretch).
Per-color records (`gameState`, `consecutiveSixes`) are JS objects keyed by
the four color names; they are modelled as four-field structures with
`get`/`set` indexed by `Color`.
-/

namespace Ludo

instance {ε α : Type} [DecidableEq ε] [DecidableEq α] : DecidableEq (Except ε α) :=
  fun a b =>
    match a, b with
    | .ok x, .ok y =>
        if h : x = y then .isTrue (by rw [h]) else .isFalse (by simp [h])
    | .error x, .error y =>
        if h : x = y then .isTrue (by rw [h]) else .isFalse (by simp [h])
    | .ok _, .error _ => .isFalse (by simp)
    | .error _, .ok _ => .isFalse (by simp)

inductive Color : Type where
  | red
  | green
  | yellow
  | blue
deriving DecidableEq, Repr

open Color

instance : Fintype Color :=
  ⟨⟨{red, green, yellow, blue}, by decide⟩, fun c => by cases c <;> decide⟩

/-- The color enumeration order `['red', 'green', 'blue', 'yellow']` used by
`checkKill`, `checkWinner` and join-color assignment in src/server.js. -/
def colorEnum : List Color := [red, green, blue, yellow]

/-- The turn cycle order `['red', 'green', 'yellow', 'blue']` used by
`getNextPlayer`. -/
def turnOrder : List Color := [red, green, yellow, blue]

/-- `order.indexOf(current)` for the turn cycle. -/
def turnIdx : Color → Nat
  | red => 0
  | green => 1
  | yellow => 2
  | blue => 3

/-- `STAR_POSITIONS` from src/server.js line 31. -/
def STAR_POSITIONS : List Int := [0, 8, 13, 21, 26, 34, 39, 47]

/-- `START_POSITIONS` from src/server.js lines 34-39. -/
def START_POSITIONS : Color → Int
  | red => 0
  | green => 13
  | yellow => 26
  | blue => 39

/-- One color's slice of `gameState`: `{ tokens, score, kills, finished }`. -/
structure ColorState where
  tokens : List Int
  score : Nat
  kills : Nat
  finished : List Nat
deriving DecidableEq, Repr

def initColorState : ColorState :=
  { tokens := [-1, -1, -1, -1], score := 0, kills := 0, finished := [] }

/-- The `gameState` object of a room: one `ColorState` per color. -/
structure GameState where
  red : ColorState
  green : ColorState
  blue : ColorState
  yellow : ColorState
deriving DecidableEq, Repr

def GameState.get (gs : GameState) : Color → ColorState
  | .red => gs.red
  | .green => gs.green
  | .blue => gs.blue
  | .yellow => gs.yellow

def GameState.set (gs : GameState) (c : Color) (s : ColorState) : GameState :=
  match c with
  | .red => { gs with red := s }
  | .green => { gs with green := s }
  | .blue => { gs with blue := s }
  | .yellow => { gs with yellow := s }

@[simp] theorem GameState.get_set_self (gs : GameState) (c : Color) (s : ColorState) :
    (gs.set c s).get c = s := by
  cases c <;> rfl

theorem GameState.get_set_ne (gs : GameState) {c c' : Color} (s : ColorState)
    (h : c' ≠ c) : (gs.set c s).get c' = gs.get c' := by
  cases c <;> cases c' <;> first
    | rfl
    | exact absurd rfl h

/-- The `consecutiveSixes` object of a room, one counter per color. -/
structure SixCounters where
  red : Nat
  green : Nat
  blue : Nat
  yellow : Nat
deriving DecidableEq, Repr

def SixCounters.get (s : SixCounters) : Color → Nat
  | .red => s.red
  | .green => s.green
  | .blue => s.blue
  | .yellow => s.yellow

def SixCounters.set (s : SixCounters) (c : Color) (n : Nat) : SixCounters :=
  match c with
  | .red => { s with red := n }
  | .green => { s with green := n }
  | .blue => { s with blue := n }
  | .yellow => { s with yellow := n }

@[simp] theorem SixCounters.get_set_self_six (s : SixCounters) (c : Color) (n : Nat) :
    (s.set c n).get c = n := by
  cases c <;> rfl

theorem SixCounters.get_set_ne_six (s : SixCounters) {c c' : Color} (n : Nat)
    (h : c' ≠ c) : (s.set c n).get c' = s.get c' := by
  cases c <;> cases c' <;> first
    | rfl
    | exact absurd rfl h

structure Player where
  socketId : Nat
  color : Color
deriving DecidableEq, Repr

/-- A `GameRoom` instance (src/server.js lines 52-69); the room code and game
mode strings are dropped. -/
structure GameRoom where
  players : List Player
  currentPlayer : Color
  gameStarted : Bool
  consecutiveSixes : SixCounters
  lastDiceRoll : Nat
  gameState : GameState
deriving DecidableEq, Repr

/-- `new GameRoom(roomCode, gameMode)`. -/
def GameRoom.new : GameRoom :=
  { players := []
    currentPlayer := red
    gameStarted := false
    consecutiveSixes := ⟨0, 0, 0, 0⟩
    lastDiceRoll := 0
    gameState := ⟨initColorState, initColorState, initColorState, initColorState⟩ }

/-- `GameRoom.addPlayer` (src/server.js lines 71-78). -/
def GameRoom.addPlayer (r : GameRoom) (sid : Nat) (c : Color) : GameRoom × Bool :=
  if r.players.length < 4 ∧ r.players.all (fun p => p.color ≠ c) then
    ({ r with
        players := r.players ++ [⟨sid, c⟩]
        consecutiveSixes := r.consecutiveSixes.set c 0 }, true)
  else
    (r, false)

/-- `GameRoom.removePlayer` (src/server.js lines 80-82). -/
def GameRoom.removePlayer (r : GameRoom) (sid : Nat) : GameRoom :=
  { r with players := r.players.filter (fun p => p.socketId ≠ sid) }

/-- Candidate color at loop step `i` of `getNextPlayer`:
`order[(currentIndex + i) % 4]`. -/
def nextCandidate (current : Color) (i : Nat) : Color :=
  turnOrder.getD ((turnIdx current + i) % 4) current

/-- The loop body of `getNextPlayer` factored over the membership test:
`f c` stands for `activeColors.includes(c)`. -/
def nextFromB (f : Color → Bool) (current : Color) : Color :=
  match [1, 2, 3, 4].find? (fun i => f (nextCandidate current i)) with
  | some i => nextCandidate current i
  | none => current

/-- `GameRoom.getNextPlayer` (src/server.js lines 84-96). -/
def GameRoom.getNextPlayer (r : GameRoom) (current : Color) : Color :=
  nextFromB (fun c => (r.players.map Player.color).contains c) current

/-- Number of `color`'s tokens at `position`:
`tokens.filter(t => t === position).length`. -/
def tokensAt (cs : ColorState) (position : Int) : Nat :=
  (cs.tokens.filter (fun t => t = position)).length

/-- The inner `for (let i = 0; i < 4; i++)` search of `checkKill`: the first
index holding `position`. -/
def findTokenIdx (position : Int) : List Int → Option Nat
  | [] => none
  | t :: rest =>
      if t = position then some 0
      else (findTokenIdx position rest).map (· + 1)

/-- The `for (const color of ...)` loop of `checkKill` over the remaining
colors, threading the mutated `gameState`. -/
def checkKillScan (gs : GameState) (attacker : Color) (position : Int) :
    List Color → GameState × Option (Color × Nat)
  | [] => (gs, none)
  | c :: rest =>
      if c = attacker then
        checkKillScan gs attacker position rest
      else if 2 ≤ tokensAt (gs.get c) position then
        checkKillScan gs attacker position rest
      else
        match findTokenIdx position (gs.get c).tokens with
        | some i =>
            (gs.set c { gs.get c with tokens := (gs.get c).tokens.set i (-1) },
             some (c, i))
        | none => checkKillScan gs attacker position rest

/-- `GameRoom.checkKill` (src/server.js lines 126-159), acting on the
`gameState` component. -/
def checkKill (gs : GameState) (attacker : Color) (position : Int) :
    GameState × Option (Color × Nat) :=
  if position ∈ STAR_POSITIONS then (gs, none)
  else if 52 ≤ position then (gs, none)
  else checkKillScan gs attacker position colorEnum

/-- `GameRoom.canTokenMove` (src/server.js lines 164-186). -/
def GameRoom.canTokenMove (r : GameRoom) (c : Color) (tid : Nat) (d : Nat) : Bool :=
  let currentPos := (r.gameState.get c).tokens.getD tid (-1)
  if currentPos = -1 then
    d == 6
  else if (r.gameState.get c).finished.contains tid then
    false
  else if 57 < currentPos + (d : Int) then
    false
  else
    true

/-- The result record of `GameRoom.moveToken` (message string dropped). -/
structure MoveResult where
  newPos : Int
  killed : Option (Color × Nat)
  validMove : Bool
deriving DecidableEq, Repr

/-- `GameRoom.moveToken` (src/server.js lines 188-232). -/
def GameRoom.moveToken (r : GameRoom) (c : Color) (tid : Nat) (d : Nat) :
    GameRoom × MoveResult :=
  let cs := r.gameState.get c
  let currentPos := cs.tokens.getD tid (-1)
  if currentPos = -1 ∧ d = 6 then
    let cs1 : ColorState := { cs with tokens := cs.tokens.set tid (START_POSITIONS c) }
    ({ r with gameState := r.gameState.set c cs1 },
     { newPos := START_POSITIONS c, killed := none, validMove := true })
  else if currentPos ≠ -1 then
    if currentPos + (d : Int) = 57 then
      let cs1 : ColorState :=
        { cs with
            tokens := cs.tokens.set tid 57
            score := cs.score + 1
            finished := cs.finished ++ [tid] }
      ({ r with gameState := r.gameState.set c cs1 },
       { newPos := 57, killed := none, validMove := true })
    else if currentPos + (d : Int) < 57 then
      let kres := checkKill r.gameState c (currentPos + (d : Int))
      let gs2 : GameState :=
        if kres.2.isSome then
          kres.1.set c { kres.1.get c with kills := (kres.1.get c).kills + 1 }
        else kres.1
      let cs2 : ColorState :=
        { gs2.get c with tokens := (gs2.get c).tokens.set tid (currentPos + (d : Int)) }
      ({ r with gameState := gs2.set c cs2 },
       { newPos := currentPos + (d : Int), killed := kres.2, validMove := true })
    else
      (r, { newPos := currentPos, killed := none, validMove := false })
  else
    let cs1 : ColorState := { cs with tokens := cs.tokens.set tid currentPos }
    ({ r with gameState := r.gameState.set c cs1 },
     { newPos := currentPos, killed := none, validMove := true })

/-- `GameRoom.checkWinner` (src/server.js lines 237-244). -/
def GameRoom.checkWinner (r : GameRoom) : Option Color :=
  colorEnum.find? (fun c => (r.gameState.get c).score = 4)

inductive Err : Type where
  | RoomNotFound
  | NotYourTurn
  | InvalidMove
deriving DecidableEq, Repr

inductive RollOutcome : Type where
  | turnSkipped (player : Color) (nextPlayer : Color)
  | diceRolled (value : Nat) (player : Color) (sixes : Nat)
deriving DecidableEq, Repr

/-- The `rollDice` socket handler (src/server.js lines 367-412), at the level
of a single room's state. -/
def rollDiceRoom (r : GameRoom) (playerColor : Color) (d : Nat) :
    GameRoom × Except Err RollOutcome :=
  if r.currentPlayer ≠ playerColor then
    (r, .error .NotYourTurn)
  else
    let newCount : Nat :=
      if d = 6 then r.consecutiveSixes.get playerColor + 1 else 0
    let r1 : GameRoom :=
      { r with consecutiveSixes := r.consecutiveSixes.set playerColor newCount }
    if 3 ≤ r1.consecutiveSixes.get playerColor then
      let r2 : GameRoom := { r1 with
        consecutiveSixes := r1.consecutiveSixes.set playerColor 0
        currentPlayer := r1.getNextPlayer playerColor }
      (r2, .ok (.turnSkipped playerColor r2.currentPlayer))
    else
      ({ r1 with lastDiceRoll := d },
       .ok (.diceRolled d playerColor (r1.consecutiveSixes.get playerColor)))

/-- `rollDice` including the registry lookup (`RoomNotFound`). -/
def rollDiceHandler (room? : Option GameRoom) (playerColor : Color) (d : Nat) :
    Option GameRoom × Except Err RollOutcome :=
  match room? with
  | none => (none, .error .RoomNotFound)
  | some r => (some (rollDiceRoom r playerColor d).1, (rollDiceRoom r playerColor d).2)

/-- The payload broadcast on a successful `moveToken` (non-state fields). -/
structure MovePayload where
  newPos : Int
  killed : Option (Color × Nat)
  nextPlayer : Color
  gameOver : Bool
  winner : Option Color
deriving DecidableEq, Repr

/-- The `moveToken` socket handler (src/server.js lines 417-472), at the level
of a single room's state. -/
def moveTokenRoom (r : GameRoom) (player : Color) (tid : Nat) (d : Nat) :
    GameRoom × Except Err MovePayload :=
  if r.currentPlayer ≠ player then
    (r, .error .NotYourTurn)
  else if ¬ r.canTokenMove player tid d then
    (r, .error .InvalidMove)
  else
    let r1 := (r.moveToken player tid d).1
    let mv := (r.moveToken player tid d).2
    if mv.validMove = false then
      (r1, .error .InvalidMove)
    else
      let winner := r1.checkWinner
      let r2 : GameRoom :=
        if d ≠ 6 ∧ winner = none then
          { r1 with
              currentPlayer := r1.getNextPlayer player
              consecutiveSixes := r1.consecutiveSixes.set player 0 }
        else r1
      (r2, .ok { newPos := mv.newPos, killed := mv.killed,
                 nextPlayer := r2.currentPlayer,
                 gameOver := winner.isSome, winner := winner })

/-- `moveToken` including the registry lookup (`RoomNotFound`). -/
def moveTokenHandler (room? : Option GameRoom) (player : Color) (tid : Nat) (d : Nat) :
    Option GameRoom × Except Err MovePayload :=
  match room? with
  | none => (none, .error .RoomNotFound)
  | some r =>
      (some (moveTokenRoom r player tid d).1, (moveTokenRoom r player tid d).2)

/-- The room produced by the `createRoom` handler (src/server.js lines
275-301): a fresh room whose first player is forced to red. -/
def createRoomRoom (sid : Nat) : GameRoom :=
  (GameRoom.new.addPlayer sid red).1

/-! ### Concrete sample states used by witnesses and counterexamples -/

/-- A mid-game state: red's token 0 on cell 5, green's token 0 alone on
cell 10, blue stacked (two tokens) on cell 10. -/
def gsSample : GameState :=
  { red := { tokens := [5, -1, -1, -1], score := 0, kills := 0, finished := [] }
    green := { tokens := [10, -1, -1, -1], score := 0, kills := 0, finished := [] }
    blue := { tokens := [10, 10, -1, -1], score := 0, kills := 0, finished := [] }
    yellow := initColorState }

/-- A started two-player room over `gsSample` with red to move. -/
def sampleRoom : GameRoom :=
  { players := [⟨1, red⟩, ⟨2, green⟩]
    currentPlayer := red
    gameStarted := true
    consecutiveSixes := ⟨0, 0, 0, 0⟩
    lastDiceRoll := 0
    gameState := gsSample }

/-! ### Helper lemmas -/

theorem mem_colorEnum (c : Color) : c ∈ colorEnum := by
  cases c <;> decide

/-- `moveToken` only rewrites `gameState`; every other room field survives. -/
theorem moveToken_frame (r : GameRoom) (c : Color) (tid d : Nat) :
    (r.moveToken c tid d).1.players = r.players
    ∧ (r.moveToken c tid d).1.currentPlayer = r.currentPlayer
    ∧ (r.moveToken c tid d).1.consecutiveSixes = r.consecutiveSixes
    ∧ (r.moveToken c tid d).1.gameStarted = r.gameStarted
    ∧ (r.moveToken c tid d).1.lastDiceRoll = r.lastDiceRoll := by
  simp only [GameRoom.moveToken]
  split_ifs <;> simp

/-- An invalid `moveToken` returns before mutating anything. -/
theorem moveToken_invalid_frame (r : GameRoom) (c : Color) (tid d : Nat)
    (h : (r.moveToken c tid d).2.validMove = false) :
    (r.moveToken c tid d).1 = r := by
  simp only [GameRoom.moveToken] at h ⊢
  split_ifs at h ⊢ <;> simp_all

/-- `getNextPlayer` only reads the player list. -/
theorem getNextPlayer_congr {r r' : GameRoom} (h : r'.players = r.players)
    (current : Color) : r'.getNextPlayer current = r.getNextPlayer current := by
  simp [GameRoom.getNextPlayer, h]

/-- `checkWinner` only reads the game state. -/
theorem checkWinner_congr {r r' : GameRoom} (h : r'.gameState = r.gameState) :
    r'.checkWinner = r.checkWinner := by
  simp [GameRoom.checkWinner, h]

/-! ### C2: canTokenMove -/

/-- C2: for a token index in 0..3 and a dice value 1..6, `canTokenMove`
returns true for a token at home exactly when the dice shows 6; for a token
on the board whose index is in the finished set it returns false; otherwise
it returns true exactly when `position + dice ≤ 57`. -/
theorem canTokenMove_spec (r : GameRoom) (c : Color) (tid : Nat) (d : Nat)
    (htid : tid < 4) (hd1 : 1 ≤ d) (hd6 : d ≤ 6) :
    ((r.gameState.get c).tokens.getD tid (-1) = -1 →
      (r.canTokenMove c tid d = true ↔ d = 6))
    ∧ ((r.gameState.get c).tokens.getD tid (-1) ≠ -1 →
        tid ∈ (r.gameState.get c).finished →
        r.canTokenMove c tid d = false)
    ∧ ((r.gameState.get c).tokens.getD tid (-1) ≠ -1 →
        tid ∉ (r.gameState.get c).finished →
        (r.canTokenMove c tid d = true ↔
          (r.gameState.get c).tokens.getD tid (-1) + (d : Int) ≤ 57)) := by
  refine ⟨fun h => ?_, fun h hf => ?_, fun h hf => ?_⟩
  · simp only [GameRoom.canTokenMove]
    split_ifs
    simp
  · simp only [GameRoom.canTokenMove]
    split_ifs with h1 h2 h3
    · exact absurd h1 h
    · rfl
    · rfl
    · exact absurd (by simpa using hf : (r.gameState.get c).finished.contains tid = true) h2
  · simp only [GameRoom.canTokenMove]
    split_ifs with h1 h2 h3
    · exact absurd h1 h
    · exact absurd (by simpa using h2 : tid ∈ (r.gameState.get c).finished) hf
    · constructor
      · intro hx
        exact absurd hx (by simp)
      · intro hx
        omega
    · constructor
      · intro _
        omega
      · intro _
        rfl

theorem canTokenMove_spec_witness :
    (sampleRoom.canTokenMove red 1 6 = true ↔ (6 : Nat) = 6)
    ∧ (sampleRoom.canTokenMove red 0 4 = true ↔ (5 : Int) + (4 : Int) ≤ 57) :=
  ⟨(canTokenMove_spec sampleRoom red 1 6 (by decide) (by decide) (by decide)).1
      (by decide),
   (canTokenMove_spec sampleRoom red 0 4 (by decide) (by decide) (by decide)).2.2
      (by decide) (by decide)⟩

/-! ### C4: three consecutive sixes -/

/-- C4: a roll of 6 by the color whose six-counter stands at 2 skips the
turn: the counter resets to 0, the turn moves to `getNextPlayer`, and every
other room component — game state, players, started flag, recorded dice,
other counters — is untouched. -/
theorem rollDice_three_sixes_skip (r : GameRoom) (c : Color)
    (hturn : r.currentPlayer = c) (hcount : r.consecutiveSixes.get c = 2) :
    (rollDiceRoom r c 6).1.consecutiveSixes.get c = 0
    ∧ (rollDiceRoom r c 6).1.currentPlayer = r.getNextPlayer c
    ∧ (rollDiceRoom r c 6).1.gameState = r.gameState
    ∧ (rollDiceRoom r c 6).1.lastDiceRoll = r.lastDiceRoll
    ∧ (rollDiceRoom r c 6).1.players = r.players
    ∧ (rollDiceRoom r c 6).1.gameStarted = r.gameStarted
    ∧ (∀ c', c' ≠ c →
        (rollDiceRoom r c 6).1.consecutiveSixes.get c'
          = r.consecutiveSixes.get c')
    ∧ (rollDiceRoom r c 6).2
        = .ok (.turnSkipped c ((rollDiceRoom r c 6).1.currentPlayer)) := by
  simp only [rollDiceRoom, hturn, ne_eq, not_true_eq_false, if_false, hcount,
    SixCounters.get_set_self_six, Nat.reduceAdd, Nat.reduceLeDiff, if_true, reduceIte]
  refine ⟨by simp, getNextPlayer_congr rfl c, by trivial, by trivial, by trivial,
    by trivial, ?_, by trivial⟩
  intro c' hc'
  rw [SixCounters.get_set_ne_six _ _ hc', SixCounters.get_set_ne_six _ _ hc']

theorem rollDice_three_sixes_skip_witness :
    (rollDiceRoom { sampleRoom with consecutiveSixes := ⟨2, 0, 0, 0⟩ } red 6).1.consecutiveSixes.get
        red = 0
    ∧ (rollDiceRoom { sampleRoom with consecutiveSixes := ⟨2, 0, 0, 0⟩ } red 6).1.currentPlayer
        = { sampleRoom with consecutiveSixes := ⟨2, 0, 0, 0⟩ }.getNextPlayer red :=
  ⟨(rollDice_three_sixes_skip _ red rfl (by decide)).1,
   (rollDice_three_sixes_skip { sampleRoom with consecutiveSixes := ⟨2, 0, 0, 0⟩ }
      red rfl (by decide)).2.1⟩

/-! ### C3: reaching home (position 57) -/

/-- C3: a valid move that lands a token from a board position exactly on 57
increments that color's score by 1, appends the token index to its finished
list, leaves its kill count and every other color's state unchanged (no
capture check runs), and reports the move as valid with no kill. -/
theorem moveToken_reach_home_spec (r : GameRoom) (c : Color) (tid : Nat) (d : Nat)
    (hpos : 0 ≤ (r.gameState.get c).tokens.getD tid (-1))
    (hsum : (r.gameState.get c).tokens.getD tid (-1) + (d : Int) = 57)
    (hvalid : r.canTokenMove c tid d = true) :
    ((r.moveToken c tid d).1.gameState.get c).score = (r.gameState.get c).score + 1
    ∧ ((r.moveToken c tid d).1.gameState.get c).finished
        = (r.gameState.get c).finished ++ [tid]
    ∧ ((r.moveToken c tid d).1.gameState.get c).kills = (r.gameState.get c).kills
    ∧ ((r.moveToken c tid d).1.gameState.get c).tokens
        = (r.gameState.get c).tokens.set tid 57
    ∧ (∀ c', c' ≠ c → (r.moveToken c tid d).1.gameState.get c' = r.gameState.get c')
    ∧ (r.moveToken c tid d).2 = { newPos := 57, killed := none, validMove := true } := by
  have hne : (r.gameState.get c).tokens.getD tid (-1) ≠ -1 := by omega
  simp only [GameRoom.moveToken, hne, hsum, ne_eq, not_false_eq_true, if_true, false_and, if_false,
    reduceIte]
  refine ⟨by simp, by simp, by simp, by simp, ?_, by trivial⟩
  intro c' hc'
  rw [GameState.get_set_ne _ _ hc']

/-- A room with red's token 0 one exact roll away from home. -/
def finishRoom : GameRoom :=
  { sampleRoom with gameState :=
      { gsSample with red := { gsSample.red with tokens := [54, -1, -1, -1] } } }

theorem moveToken_reach_home_spec_witness :
    ((finishRoom.moveToken red 0 3).1.gameState.get red).score
        = (finishRoom.gameState.get red).score + 1
    ∧ ((finishRoom.moveToken red 0 3).1.gameState.get red).finished
        = (finishRoom.gameState.get red).finished ++ [0] :=
  ⟨(moveToken_reach_home_spec finishRoom red 0 3 (by decide) (by decide) (by decide)).1,
   (moveToken_reach_home_spec finishRoom red 0 3 (by decide) (by decide) (by decide)).2.1⟩

/-! ### C6: rejection conditions and atomicity -/

/-- C6: `rollDice` and `moveToken` fail with `NotYourTurn` exactly when the
requesting color is not the room's current-turn color; every failing request
(`RoomNotFound`, `NotYourTurn`, `InvalidMove`) leaves the room state exactly
as it was. -/
theorem handlers_reject_atomic :
    (∀ (r : GameRoom) (c : Color) (d : Nat),
        (rollDiceRoom r c d).2 = .error .NotYourTurn ↔ r.currentPlayer ≠ c)
    ∧ (∀ (r : GameRoom) (p : Color) (tid d : Nat),
        (moveTokenRoom r p tid d).2 = .error .NotYourTurn ↔ r.currentPlayer ≠ p)
    ∧ (∀ (r : GameRoom) (c : Color) (d : Nat) (e : Err),
        (rollDiceRoom r c d).2 = .error e → (rollDiceRoom r c d).1 = r)
    ∧ (∀ (r : GameRoom) (p : Color) (tid d : Nat) (e : Err),
        (moveTokenRoom r p tid d).2 = .error e → (moveTokenRoom r p tid d).1 = r)
    ∧ (∀ (c : Color) (d : Nat), rollDiceHandler none c d = (none, .error .RoomNotFound))
    ∧ (∀ (p : Color) (tid d : Nat),
        moveTokenHandler none p tid d = (none, .error .RoomNotFound)) := by
  refine ⟨?_, ?_, ?_, ?_, fun c d => rfl, fun p tid d => rfl⟩
  · intro r c d
    by_cases h : r.currentPlayer = c
    · simp only [rollDiceRoom, h, ne_eq, not_true_eq_false, if_false, reduceIte]
      split_ifs <;> simp
    · simp [rollDiceRoom, h]
  · intro r p tid d
    by_cases h : r.currentPlayer = p
    · simp only [moveTokenRoom, h, ne_eq, not_true_eq_false, if_false, reduceIte]
      split_ifs <;> simp [h]
    · simp [moveTokenRoom, h]
  · intro r c d e h
    by_cases h1 : r.currentPlayer = c
    · simp only [rollDiceRoom, h1, ne_eq, not_true_eq_false, if_false, reduceIte] at h
      split_ifs at h <;> simp_all
    · simp [rollDiceRoom, h1]
  · intro r p tid d e h
    simp only [moveTokenRoom] at h ⊢
    split_ifs at h ⊢ <;>
      first
        | rfl
        | exact moveToken_invalid_frame r p tid d (by assumption)
        | simp_all

theorem handlers_reject_atomic_witness :
    ((rollDiceRoom sampleRoom green 4).2 = .error .NotYourTurn
      ↔ sampleRoom.currentPlayer ≠ green)
    ∧ (rollDiceRoom sampleRoom green 4).1 = sampleRoom
    ∧ (moveTokenRoom sampleRoom red 1 3).1 = sampleRoom :=
  ⟨handlers_reject_atomic.1 sampleRoom green 4,
   handlers_reject_atomic.2.2.1 sampleRoom green 4 .NotYourTurn (by decide),
   handlers_reject_atomic.2.2.2.1 sampleRoom red 1 3 .InvalidMove (by decide)⟩

/-! ### C5: turn advancement after a valid move -/

/-- C5: after an accepted `moveToken`, the turn pointer stays put when a
winner has just been produced; with no winner it advances via
`getNextPlayer` and resets the mover's six-counter when the dice was not 6,
and stays with the mover when the dice was 6. -/
theorem moveToken_turn_advance (r : GameRoom) (player : Color) (tid d : Nat)
    (out : MovePayload)
    (h : (moveTokenRoom r player tid d).2 = .ok out) :
    ((moveTokenRoom r player tid d).1.checkWinner.isSome →
        (moveTokenRoom r player tid d).1.currentPlayer = r.currentPlayer)
    ∧ ((moveTokenRoom r player tid d).1.checkWinner = none → d ≠ 6 →
        (moveTokenRoom r player tid d).1.currentPlayer = r.getNextPlayer player
        ∧ (moveTokenRoom r player tid d).1.consecutiveSixes.get player = 0)
    ∧ ((moveTokenRoom r player tid d).1.checkWinner = none → d = 6 →
        (moveTokenRoom r player tid d).1.currentPlayer = player) := by
  by_cases hturn : r.currentPlayer = player
  case neg => simp [moveTokenRoom, hturn] at h
  by_cases hcan : r.canTokenMove player tid d = true
  case neg => simp [moveTokenRoom, hturn, hcan] at h
  by_cases hvm : (r.moveToken player tid d).2.validMove = false
  case pos => simp [moveTokenRoom, hturn, hcan, hvm] at h
  have hvm' : (r.moveToken player tid d).2.validMove = true := by
    revert hvm
    cases (r.moveToken player tid d).2.validMove <;> simp
  have hframe := moveToken_frame r player tid d
  simp only [moveTokenRoom, GameRoom.checkWinner, hturn, hcan, hvm', ne_eq,
    not_true_eq_false, if_false, Bool.true_eq_false, not_false_eq_true, if_true, reduceIte]
  by_cases hd : d = 6
  · subst hd
    simp only [not_true_eq_false, false_and, if_false, reduceIte]
    exact ⟨fun _ => hframe.2.1.trans hturn, fun _ hf => hf.elim,
      fun _ _ => hframe.2.1.trans hturn⟩
  · simp only [hd, not_false_eq_true, true_and, reduceIte]
    by_cases hw : colorEnum.find?
        (fun c => ((r.moveToken player tid d).1.gameState.get c).score = 4) = none
    · simp only [hw, if_true, reduceIte, SixCounters.get_set_self_six]
      refine ⟨fun hsome => ?_, fun _ _ => ⟨getNextPlayer_congr hframe.1 player, trivial⟩,
        fun _ hf => hf.elim⟩
      simp at hsome
    · simp only [hw, if_false, reduceIte]
      exact ⟨fun _ => hframe.2.1.trans hturn, fun hf _ => hf.elim,
        fun _ hf => hf.elim⟩

theorem moveToken_turn_advance_witness :
    (moveTokenRoom sampleRoom red 1 6).1.currentPlayer = red
    ∧ (moveTokenRoom sampleRoom red 0 5).1.currentPlayer
        = sampleRoom.getNextPlayer red :=
  ⟨(moveToken_turn_advance sampleRoom red 1 6
      { newPos := 0, killed := none, nextPlayer := red, gameOver := false, winner := none }
      (by decide)).2.2 (by decide) rfl,
   ((moveToken_turn_advance sampleRoom red 0 5
      { newPos := 10, killed := some (green, 0), nextPlayer := green,
        gameOver := false, winner := none }
      (by decide)).2.1 (by decide) (by decide)).1⟩

/-! ### C7: getNextPlayer -/

/-- The loop of `getNextPlayer` always lands on a color the membership test
accepts, whenever any color is accepted at all. -/
theorem nextFromB_active : ∀ (f : Color → Bool) (current : Color),
    (∃ c, f c = true) → f (nextFromB f current) = true := by decide

/-- If the loop of `getNextPlayer` returns `current` itself then either every
accepted color equals `current` or no color is accepted. -/
theorem nextFromB_self : ∀ (f : Color → Bool) (current : Color),
    nextFromB f current = current →
      (∀ c, f c = true → c = current) ∨ (∀ c, f c = false) := by decide

/-- C7 counterexample: on a room with an empty player list (the state every
`GameRoom` is constructed in), `getNextPlayer red` returns `red`, a color
with no player — and `red` is not the sole color with an active player,
since there is none. -/
theorem getNextPlayer_empty_cex :
    GameRoom.new.getNextPlayer red = red ∧ GameRoom.new.players = [] := by decide

/-- List-level form of the first part of C7: over a non-empty player list,
the `getNextPlayer` loop picks the color of some listed player. -/
theorem nextFromB_mem_map (ps : List Player) (current : Color) (hne : ps ≠ []) :
    ∃ p ∈ ps, p.color = nextFromB (fun c => (ps.map Player.color).contains c) current := by
  have hex : ∃ c, (ps.map Player.color).contains c = true := by
    cases hlp : ps with
    | nil => exact absurd hlp hne
    | cons p rest => exact ⟨p.color, by simp [hlp]⟩
  have h1 := nextFromB_active (fun c => (ps.map Player.color).contains c) current hex
  have hmem : nextFromB (fun c => (ps.map Player.color).contains c) current
      ∈ ps.map Player.color := by
    simpa using h1
  rcases List.mem_map.mp hmem with ⟨p, hp, hpc⟩
  exact ⟨p, hp, hpc⟩

/-- List-level form of the second part of C7: the loop returns `current`
only when every listed player already has color `current`. -/
theorem nextFromB_self_map (ps : List Player) (current : Color)
    (h : nextFromB (fun c => (ps.map Player.color).contains c) current = current) :
    ∀ p ∈ ps, p.color = current := by
  intro p hp
  rcases nextFromB_self (fun c => (ps.map Player.color).contains c) current h
    with hall | hnone
  · exact hall p.color (by simpa using List.mem_map_of_mem Player.color hp)
  · have hmem : (ps.map Player.color).contains p.color = true := by
      simpa using List.mem_map_of_mem Player.color hp
    have hf : (ps.map Player.color).contains p.color = false := hnone p.color
    rw [hf] at hmem
    cases hmem

/-- C7 amended: on every room whose player list is non-empty,
`getNextPlayer` returns the color of some player in the room, and returns
`current` itself only when every player in the room has color `current`. -/
theorem getNextPlayer_active_spec (r : GameRoom) (current : Color)
    (hne : r.players ≠ []) :
    (∃ p ∈ r.players, p.color = r.getNextPlayer current)
    ∧ (r.getNextPlayer current = current → ∀ p ∈ r.players, p.color = current) :=
  ⟨nextFromB_mem_map r.players current hne,
   fun heq => nextFromB_self_map r.players current heq⟩

theorem getNextPlayer_active_spec_witness :
    ∃ p ∈ sampleRoom.players, p.color = sampleRoom.getNextPlayer red :=
  (getNextPlayer_active_spec sampleRoom red (by decide)).1

/-! ### C8: turn-ownership invariant -/

/-- The C8 invariant: the current-turn color belongs to some player. -/
def turnOwned (r : GameRoom) : Prop :=
  ∃ p ∈ r.players, p.color = r.currentPlayer

/-- C8 counterexample: in a started two-player room where it is red's turn,
removing red's connection leaves a non-empty started room whose current-turn
color belongs to no player. -/
theorem removePlayer_current_turn_cex :
    sampleRoom.gameStarted = true
    ∧ turnOwned sampleRoom
    ∧ (sampleRoom.removePlayer 1).gameStarted = true
    ∧ (sampleRoom.removePlayer 1).players ≠ []
    ∧ ¬ turnOwned (sampleRoom.removePlayer 1) := by
  refine ⟨rfl, ⟨⟨1, red⟩, by decide, rfl⟩, rfl, by decide, ?_⟩
  simp only [turnOwned]
  decide

/-- C8 amended: the turn-ownership invariant holds on a freshly created room
and is preserved by `rollDice` and `moveToken`; `removePlayer` preserves it
provided some player other than the removed connection holds the
current-turn color (removing the current-turn player itself can break it,
as `removePlayer` never reassigns the turn). -/
theorem turn_invariant_preservation :
    (∀ sid : Nat, turnOwned (createRoomRoom sid))
    ∧ (∀ (r : GameRoom) (sid : Nat),
        (∃ p ∈ r.players, p.color = r.currentPlayer ∧ p.socketId ≠ sid) →
        turnOwned (r.removePlayer sid))
    ∧ (∀ (r : GameRoom) (c : Color) (d : Nat),
        turnOwned r → turnOwned (rollDiceRoom r c d).1)
    ∧ (∀ (r : GameRoom) (p : Color) (tid d : Nat),
        turnOwned r → turnOwned (moveTokenRoom r p tid d).1) := by
  refine ⟨?_, ?_, ?_, ?_⟩
  · intro sid
    exact ⟨⟨sid, red⟩, by simp [createRoomRoom, GameRoom.addPlayer, GameRoom.new], rfl⟩
  · rintro r sid ⟨p, hp, hpc, hsid⟩
    refine ⟨p, ?_, hpc⟩
    simp only [GameRoom.removePlayer, List.mem_filter]
    exact ⟨hp, by simpa using hsid⟩
  · intro r c d h
    have hne : r.players ≠ [] := by
      rcases h with ⟨p, hp, _⟩
      intro hnil
      rw [hnil] at hp
      cases hp
    simp only [rollDiceRoom]
    split_ifs with h1 h2 h3 <;>
      first
        | exact h
        | exact nextFromB_mem_map r.players c hne
  · intro r p tid d h
    have hne : r.players ≠ [] := by
      rcases h with ⟨q, hq, _⟩
      intro hnil
      rw [hnil] at hq
      cases hq
    have hframe := moveToken_frame r p tid d
    simp only [moveTokenRoom]
    split_ifs with h1 h2 h3 h4
    · exact h
    · rw [moveToken_invalid_frame r p tid d h3]
      exact h
    · rcases nextFromB_mem_map r.players p hne with ⟨q, hq, hqc⟩
      refine ⟨q, ?_, ?_⟩
      · show q ∈ (r.moveToken p tid d).1.players
        rw [hframe.1]
        exact hq
      · show q.color = (r.moveToken p tid d).1.getNextPlayer p
        rw [getNextPlayer_congr hframe.1 p]
        exact hqc
    · rcases h with ⟨q, hq, hqc⟩
      refine ⟨q, ?_, ?_⟩
      · show q ∈ (r.moveToken p tid d).1.players
        rw [hframe.1]
        exact hq
      · show q.color = (r.moveToken p tid d).1.currentPlayer
        rw [hframe.2.1]
        exact hqc
    · exact h

theorem turn_invariant_preservation_witness :
    turnOwned (createRoomRoom 9)
    ∧ turnOwned (sampleRoom.removePlayer 2)
    ∧ turnOwned (rollDiceRoom sampleRoom red 6).1
    ∧ turnOwned (moveTokenRoom sampleRoom red 0 5).1 :=
  ⟨turn_invariant_preservation.1 9,
   turn_invariant_preservation.2.1 sampleRoom 2 ⟨⟨1, red⟩, by decide, rfl, by decide⟩,
   turn_invariant_preservation.2.2.1 sampleRoom red 6 ⟨⟨1, red⟩, by decide, rfl⟩,
   turn_invariant_preservation.2.2.2 sampleRoom red 0 5 ⟨⟨1, red⟩, by decide, rfl⟩⟩

/-! ### Field-independence lemmas: the handlers never read `lastDiceRoll`
or `gameStarted` -/

theorem canTokenMove_set_lastDiceRoll (r : GameRoom) (p : Color) (tid d v : Nat) :
    GameRoom.canTokenMove { r with lastDiceRoll := v } p tid d = r.canTokenMove p tid d := rfl

theorem checkWinner_set_lastDiceRoll (r : GameRoom) (v : Nat) :
    GameRoom.checkWinner { r with lastDiceRoll := v } = r.checkWinner := rfl

theorem getNextPlayer_set_lastDiceRoll (r : GameRoom) (v : Nat) (c : Color) :
    GameRoom.getNextPlayer { r with lastDiceRoll := v } c = r.getNextPlayer c := rfl

theorem canTokenMove_set_gameStarted (r : GameRoom) (p : Color) (tid d : Nat) (b : Bool) :
    GameRoom.canTokenMove { r with gameStarted := b } p tid d = r.canTokenMove p tid d := rfl

theorem checkWinner_set_gameStarted (r : GameRoom) (b : Bool) :
    GameRoom.checkWinner { r with gameStarted := b } = r.checkWinner := rfl

theorem getNextPlayer_set_gameStarted (r : GameRoom) (b : Bool) (c : Color) :
    GameRoom.getNextPlayer { r with gameStarted := b } c = r.getNextPlayer c := rfl

theorem moveToken_set_lastDiceRoll (r : GameRoom) (p : Color) (tid d v : Nat) :
    GameRoom.moveToken { r with lastDiceRoll := v } p tid d
      = ({ (r.moveToken p tid d).1 with lastDiceRoll := v }, (r.moveToken p tid d).2) := by
  simp only [GameRoom.moveToken]
  split_ifs <;> rfl

theorem moveToken_set_gameStarted (r : GameRoom) (p : Color) (tid d : Nat) (b : Bool) :
    GameRoom.moveToken { r with gameStarted := b } p tid d
      = ({ (r.moveToken p tid d).1 with gameStarted := b }, (r.moveToken p tid d).2) := by
  simp only [GameRoom.moveToken]
  split_ifs <;> rfl

theorem moveTokenRoom_set_lastDiceRoll (r : GameRoom) (p : Color) (tid d v : Nat) :
    moveTokenRoom { r with lastDiceRoll := v } p tid d
      = ({ (moveTokenRoom r p tid d).1 with lastDiceRoll := v },
         (moveTokenRoom r p tid d).2) := by
  simp only [moveTokenRoom, moveToken_set_lastDiceRoll, canTokenMove_set_lastDiceRoll,
    checkWinner_set_lastDiceRoll, getNextPlayer_set_lastDiceRoll]
  split_ifs <;> rfl

theorem rollDiceRoom_set_gameStarted (r : GameRoom) (c : Color) (d : Nat) (b : Bool) :
    rollDiceRoom { r with gameStarted := b } c d
      = ({ (rollDiceRoom r c d).1 with gameStarted := b },
         (rollDiceRoom r c d).2) := by
  simp only [rollDiceRoom, getNextPlayer_set_gameStarted]
  split_ifs <;> rfl

theorem moveTokenRoom_set_gameStarted (r : GameRoom) (p : Color) (tid d : Nat) (b : Bool) :
    moveTokenRoom { r with gameStarted := b } p tid d
      = ({ (moveTokenRoom r p tid d).1 with gameStarted := b },
         (moveTokenRoom r p tid d).2) := by
  simp only [moveTokenRoom, moveToken_set_gameStarted, canTokenMove_set_gameStarted,
    checkWinner_set_gameStarted, getNextPlayer_set_gameStarted]
  split_ifs <;> rfl

/-! ### C9: the recorded dice value vs the value a move uses -/

/-- C9 counterexample: red rolls 3, which is recorded in `lastDiceRoll`,
yet a subsequent `moveToken` request by red carrying dice value 5 is
accepted and moves red's token 0 from cell 5 to cell 10 — by the payload
value 5, not the recorded 3 (which would give cell 8). -/
theorem lastDiceRoll_not_used_cex :
    (rollDiceRoom sampleRoom red 3).1.lastDiceRoll = 3
    ∧ (moveTokenRoom (rollDiceRoom sampleRoom red 3).1 red 0 5).2
        = .ok { newPos := 10, killed := some (green, 0), nextPlayer := green,
                gameOver := false, winner := none }
    ∧ ((moveTokenRoom (rollDiceRoom sampleRoom red 3).1 red 0 5).1.gameState.get red).tokens
        = [10, -1, -1, -1]
    ∧ (10 : Int) ≠ 5 + 3 := by decide

/-- C9 amended: an accepted `rollDice` that does not trigger the three-sixes
skip records the rolled value in `lastDiceRoll` and reports it; but
`moveToken` never reads `lastDiceRoll` — it applies the dice value carried
by the move request itself. -/
theorem lastDiceRoll_recorded_spec :
    (∀ (r : GameRoom) (c : Color) (d : Nat),
        r.currentPlayer = c →
        ¬ 3 ≤ (if d = 6 then r.consecutiveSixes.get c + 1 else 0) →
        (rollDiceRoom r c d).1.lastDiceRoll = d
        ∧ (rollDiceRoom r c d).2
            = .ok (.diceRolled d c (if d = 6 then r.consecutiveSixes.get c + 1 else 0)))
    ∧ (∀ (r : GameRoom) (p : Color) (tid d v : Nat),
        moveTokenRoom { r with lastDiceRoll := v } p tid d
          = ({ (moveTokenRoom r p tid d).1 with lastDiceRoll := v },
             (moveTokenRoom r p tid d).2)) := by
  constructor
  · intro r c d hturn hskip
    simp only [rollDiceRoom, hturn, ne_eq, not_true_eq_false, if_false, reduceIte,
      SixCounters.get_set_self_six]
    split_ifs with h1 h2 h3
    · exact absurd h2 (by simpa [h1] using hskip)
    · exact ⟨rfl, rfl⟩
    · exact absurd h3 (by omega)
    · exact ⟨rfl, rfl⟩
  · exact moveTokenRoom_set_lastDiceRoll

theorem lastDiceRoll_recorded_spec_witness :
    (rollDiceRoom sampleRoom red 3).1.lastDiceRoll = 3
    ∧ (rollDiceRoom sampleRoom red 3).2 = .ok (.diceRolled 3 red 0) :=
  ⟨(lastDiceRoll_recorded_spec.1 sampleRoom red 3 rfl (by decide)).1,
   (lastDiceRoll_recorded_spec.1 sampleRoom red 3 rfl (by decide)).2⟩

/-! ### C10: the started flag is never consulted -/

/-- C10: `rollDice` and `moveToken` behave identically whatever the value of
the `gameStarted` flag; in particular on a freshly created room (current
player red, not started) red's roll and move requests are accepted and
processed normally. -/
theorem started_flag_irrelevant :
    (∀ (r : GameRoom) (c : Color) (d : Nat) (b : Bool),
        rollDiceRoom { r with gameStarted := b } c d
          = ({ (rollDiceRoom r c d).1 with gameStarted := b }, (rollDiceRoom r c d).2))
    ∧ (∀ (r : GameRoom) (p : Color) (tid d : Nat) (b : Bool),
        moveTokenRoom { r with gameStarted := b } p tid d
          = ({ (moveTokenRoom r p tid d).1 with gameStarted := b },
             (moveTokenRoom r p tid d).2))
    ∧ (createRoomRoom 0).currentPlayer = red
    ∧ (createRoomRoom 0).gameStarted = false
    ∧ (rollDiceRoom (createRoomRoom 0) red 3).2 = .ok (.diceRolled 3 red 0)
    ∧ (rollDiceRoom (createRoomRoom 0) red 6).2 = .ok (.diceRolled 6 red 1)
    ∧ (moveTokenRoom (createRoomRoom 0) red 0 6).2
        = .ok { newPos := 0, killed := none, nextPlayer := red, gameOver := false,
                winner := none } :=
  ⟨fun r c d b => rollDiceRoom_set_gameStarted r c d b,
   fun r p tid d b => moveTokenRoom_set_gameStarted r p tid d b,
   rfl, rfl, by decide, by decide, by decide⟩

/-! ### C1: capture (checkKill) -/

theorem findTokenIdx_none_filter (pos : Int) :
    ∀ l : List Int, findTokenIdx pos l = none →
      (l.filter (fun t => t = pos)).length = 0
  | [], _ => rfl
  | t :: rest, h => by
      by_cases ht : t = pos
      · simp [findTokenIdx, ht] at h
      · simp only [findTokenIdx, ht, if_false, reduceIte] at h
        cases hrest : findTokenIdx pos rest with
        | none =>
            simp only [List.filter_cons, ht, decide_eq_true_eq, if_false, reduceIte]
            exact findTokenIdx_none_filter pos rest hrest
        | some j =>
            rw [hrest] at h
            simp at h

theorem findTokenIdx_some_filter (pos : Int) :
    ∀ (l : List Int) (i : Nat), findTokenIdx pos l = some i →
      0 < (l.filter (fun t => t = pos)).length
  | t :: rest, i, h => by
      by_cases ht : t = pos
      · simp [List.filter_cons, ht]
      · simp only [findTokenIdx, ht, if_false, reduceIte] at h
        cases hrest : findTokenIdx pos rest with
        | none =>
            rw [hrest] at h
            simp at h
        | some j =>
            simp only [List.filter_cons, ht, decide_eq_true_eq, if_false, reduceIte]
            exact findTokenIdx_some_filter pos rest j hrest

theorem findTokenIdx_some_get (pos : Int) :
    ∀ (l : List Int) (i : Nat), findTokenIdx pos l = some i →
      l.get? i = some pos
  | t :: rest, i, h => by
      by_cases ht : t = pos
      · simp only [findTokenIdx, ht, if_true, reduceIte, Option.some_inj] at h
        subst h
        simp [ht]
      · simp only [findTokenIdx, ht, if_false, reduceIte] at h
        cases hrest : findTokenIdx pos rest with
        | none =>
            rw [hrest] at h
            simp at h
        | some j =>
            rw [hrest] at h
            simp only [Option.map_some', Option.some_inj] at h
            subst h
            simpa using findTokenIdx_some_get pos rest j hrest


theorem checkKillScan_spec (gs : GameState) (a : Color) (pos : Int) :
    ∀ l : List Color,
      (checkKillScan gs a pos l = (gs, none)
        ∧ ∀ c ∈ l, c = a ∨ tokensAt (gs.get c) pos ≠ 1)
      ∨ (∃ c i, c ∈ l ∧ c ≠ a ∧ tokensAt (gs.get c) pos = 1
          ∧ findTokenIdx pos (gs.get c).tokens = some i
          ∧ checkKillScan gs a pos l
              = (gs.set c { gs.get c with tokens := (gs.get c).tokens.set i (-1) },
                 some (c, i)))
  | [] => Or.inl ⟨rfl, by simp⟩
  | c :: rest => by
      have ih := checkKillScan_spec gs a pos rest
      by_cases hca : c = a
      · rcases ih with ⟨h1, h2⟩ | ⟨c', i, hmem, hne, hcnt, hfind, heq⟩
        · refine Or.inl ⟨?_, ?_⟩
          · simpa [checkKillScan, hca] using h1
          · intro x hx
            rcases List.mem_cons.mp hx with rfl | hx'
            · exact Or.inl hca
            · exact h2 x hx'
        · refine Or.inr ⟨c', i, List.mem_cons_of_mem _ hmem, hne, hcnt, hfind, ?_⟩
          simpa [checkKillScan, hca] using heq
      · by_cases hsafe : 2 ≤ tokensAt (gs.get c) pos
        · rcases ih with ⟨h1, h2⟩ | ⟨c', i, hmem, hne, hcnt, hfind, heq⟩
          · refine Or.inl ⟨?_, ?_⟩
            · simpa [checkKillScan, hca, hsafe] using h1
            · intro x hx
              rcases List.mem_cons.mp hx with rfl | hx'
              · exact Or.inr (by omega)
              · exact h2 x hx'
          · refine Or.inr ⟨c', i, List.mem_cons_of_mem _ hmem, hne, hcnt, hfind, ?_⟩
            simpa [checkKillScan, hca, hsafe] using heq
        · cases hf : findTokenIdx pos (gs.get c).tokens with
          | some i =>
              have hcnt : tokensAt (gs.get c) pos = 1 := by
                have hpos := findTokenIdx_some_filter pos (gs.get c).tokens i hf
                simp only [tokensAt] at hsafe ⊢
                omega
              refine Or.inr ⟨c, i, List.mem_cons_self c rest, hca, hcnt, hf, ?_⟩
              simp [checkKillScan, hca, hsafe, hf]
          | none =>
              have hcnt : tokensAt (gs.get c) pos = 0 :=
                findTokenIdx_none_filter pos (gs.get c).tokens hf
              rcases ih with ⟨h1, h2⟩ | ⟨c', i, hmem, hne, hcnt', hfind, heq⟩
              · refine Or.inl ⟨?_, ?_⟩
                · simpa [checkKillScan, hca, hsafe, hf] using h1
                · intro x hx
                  rcases List.mem_cons.mp hx with rfl | hx'
                  · exact Or.inr (by omega)
                  · exact h2 x hx'
              · refine Or.inr ⟨c', i, List.mem_cons_of_mem _ hmem, hne, hcnt', hfind, ?_⟩
                simpa [checkKillScan, hca, hsafe, hf] using heq


theorem checkKill_attacker (gs : GameState) (a : Color) (pos : Int) :
    ((checkKill gs a pos).1).get a = gs.get a := by
  rw [checkKill]
  split_ifs
  · rfl
  · rfl
  · rcases checkKillScan_spec gs a pos colorEnum with ⟨h1, _⟩ | ⟨c, i, _, hne, _, _, heq⟩
    · rw [h1]
    · rw [heq]
      exact GameState.get_set_ne _ _ (Ne.symm hne)

/-- C1: on a non-star shared-track destination (below 52), a color stacking
two or more tokens there loses nothing; if some opposing color has exactly
one token there, one such color's token is reset to -1, its color and token
index are returned, every other color is untouched (at most one capture),
and `moveToken` increments the attacker's kill count by 1; on a star cell or
at position 52 and beyond, no capture ever occurs. -/
theorem checkKill_capture_spec (gs : GameState) (a : Color) (pos : Int) :
    ((pos ∈ STAR_POSITIONS ∨ 52 ≤ pos) → checkKill gs a pos = (gs, none))
    ∧ (pos ∉ STAR_POSITIONS → pos < 52 →
        ∀ c, c ≠ a → 2 ≤ tokensAt (gs.get c) pos →
          (checkKill gs a pos).1.get c = gs.get c)
    ∧ (pos ∉ STAR_POSITIONS → pos < 52 →
        (∃ c, c ≠ a ∧ tokensAt (gs.get c) pos = 1) →
        ∃ c i, c ≠ a ∧ tokensAt (gs.get c) pos = 1
          ∧ (gs.get c).tokens.get? i = some pos
          ∧ (checkKill gs a pos).2 = some (c, i)
          ∧ (checkKill gs a pos).1.get c
              = { gs.get c with tokens := (gs.get c).tokens.set i (-1) }
          ∧ (∀ c', c' ≠ c → (checkKill gs a pos).1.get c' = gs.get c'))
    ∧ (∀ (r : GameRoom) (tid d : Nat),
        r.gameState = gs →
        (gs.get a).tokens.getD tid (-1) ≠ -1 →
        (gs.get a).tokens.getD tid (-1) + (d : Int) = pos →
        pos < 57 →
        (checkKill gs a pos).2.isSome = true →
        ((r.moveToken a tid d).1.gameState.get a).kills = (gs.get a).kills + 1
        ∧ (r.moveToken a tid d).2.killed = (checkKill gs a pos).2) := by
  refine ⟨?_, ?_, ?_, ?_⟩
  · intro h
    rcases h with hs | h52
    · rw [checkKill, if_pos hs]
    · rw [checkKill]
      split_ifs with h1
      · rfl
      · rfl
  · intro hstar h52 c hca hcnt
    have hck : checkKill gs a pos = checkKillScan gs a pos colorEnum := by
      rw [checkKill, if_neg hstar, if_neg (by omega : ¬ (52 : Int) ≤ pos)]
    rw [hck]
    rcases checkKillScan_spec gs a pos colorEnum with ⟨h1, _⟩ | ⟨c', i, _, hne, hcnt', _, heq⟩
    · rw [h1]
    · rw [heq]
      refine GameState.get_set_ne _ _ ?_
      intro hcc
      rw [hcc] at hcnt
      omega
  · intro hstar h52 hex
    have hck : checkKill gs a pos = checkKillScan gs a pos colorEnum := by
      rw [checkKill, if_neg hstar, if_neg (by omega : ¬ (52 : Int) ≤ pos)]
    rcases checkKillScan_spec gs a pos colorEnum with ⟨h1, h2⟩ | ⟨c, i, _, hne, hcnt, hfind, heq⟩
    · rcases hex with ⟨c0, hc0a, hc0⟩
      rcases h2 c0 (mem_colorEnum c0) with rfl | hne1
      · exact absurd rfl hc0a
      · exact absurd hc0 hne1
    · refine ⟨c, i, hne, hcnt, findTokenIdx_some_get pos _ i hfind, ?_, ?_, ?_⟩
      · rw [hck, heq]
      · rw [hck, heq, GameState.get_set_self]
      · intro c' hc'
        rw [hck, heq]
        exact GameState.get_set_ne _ _ hc'
  · intro r tid d hgs hhome hsum h57 hsome
    subst hgs
    have h57' : ¬ (pos = 57) := by omega
    constructor
    · simp only [GameRoom.moveToken, hsum, hhome, ne_eq, not_false_eq_true, if_true,
        false_and, if_false, h57', h57, reduceIte, hsome, GameState.get_set_self]
      rw [checkKill_attacker]
    · simp only [GameRoom.moveToken, hsum, hhome, ne_eq, not_false_eq_true, if_true,
        false_and, if_false, h57', h57, reduceIte, hsome, GameState.get_set_self]

theorem checkKill_capture_spec_witness :
    (checkKill gsSample red 8 = (gsSample, none))
    ∧ (checkKill gsSample red 55 = (gsSample, none))
    ∧ ((checkKill gsSample red 10).1.get blue = gsSample.get blue)
    ∧ (∃ c i, c ≠ red ∧ tokensAt (gsSample.get c) 10 = 1
        ∧ (gsSample.get c).tokens.get? i = some 10
        ∧ (checkKill gsSample red 10).2 = some (c, i)
        ∧ (checkKill gsSample red 10).1.get c
            = { gsSample.get c with tokens := (gsSample.get c).tokens.set i (-1) }
        ∧ (∀ c', c' ≠ c → (checkKill gsSample red 10).1.get c' = gsSample.get c'))
    ∧ ((sampleRoom.moveToken red 0 5).1.gameState.get red).kills
        = (gsSample.get red).kills + 1 :=
  ⟨(checkKill_capture_spec gsSample red 8).1 (Or.inl (by decide)),
   (checkKill_capture_spec gsSample red 55).1 (Or.inr (by decide)),
   (checkKill_capture_spec gsSample red 10).2.1 (by decide) (by decide) blue
     (by decide) (by decide),
   (checkKill_capture_spec gsSample red 10).2.2.1 (by decide) (by decide)
     ⟨green, by decide, by decide⟩,
   ((checkKill_capture_spec gsSample red 10).2.2.2 sampleRoom 0 5 rfl
     (by decide) (by decide) (by decide) (by decide)).1⟩

end Ludo



